import Mathlib

/-!
Shallow embedding of `Automated Trading/snp_forecast.py`
(`SPYDailyForecastStrategy`), the signal-generation component of an
event-driven trading backtest.

The strategy holds a warm-up counter (`bar_index`), a position flag
(`long_market`), and a timestamp captured once at construction
(`datetime_now`).  On each `MARKET` event after five bars it requests the
three most recent returns from the data handler, builds a two-feature
vector from the first and second lags, asks the classifier for a
prediction, and emits `LONG` / `EXIT` signals according to the prediction
sign and the current position flag.

External collaborators (data handler, classifier, lagged-series builder)
are modelled as function parameters; timestamps and dates as integers;
returns as rationals; the classifier output as an integer (the code only
inspects its sign).
-/

namespace SnpForecast

/-- Direction tag carried by a `SignalEvent` (`'LONG'` / `'EXIT'` strings
in the Python source). -/
inductive SignalType where
  | LONG
  | EXIT
deriving DecidableEq, Repr

/-- Embedding of `SignalEvent(strategy_id, symbol, datetime, signal_type,
strength)` as constructed in `calculate_signals`. -/
structure SignalEvent where
  strategy_id : Nat
  symbol : String
  datetime : Int
  signal_type : SignalType
  strength : ℚ
deriving DecidableEq, Repr

/-- Mutable per-instance fields of `SPYDailyForecastStrategy` touched by
`calculate_signals`, together with the construction-time constants it
reads (`symbol_list`, `datetime_now`). -/
structure StrategyState where
  symbol_list : List String
  datetime_now : Int
  long_market : Bool
  short_market : Bool
  bar_index : Nat
deriving DecidableEq, Repr

/-- An incoming event paired with the data-handler response the strategy
would receive if it queried `get_latest_bars_values(symbol, "returns",
N=3)` while processing it.  `etype` is `event.type`; `lags` is the
ordered sequence of the most recent return observations, most recent
first (§6 of the spec). -/
structure EventInput where
  etype : String
  lags : List ℚ
deriving DecidableEq, Repr

/-- Error raised on a per-event path.  The only such path in
`calculate_signals` is indexing `lags[1]` / `lags[2]` when the data
handler returned fewer than three observations (`InsufficientHistoryError`
in the spec's taxonomy). -/
inductive StratError where
  | insufficientHistory
deriving DecidableEq, Repr

/-- Everything observable about one call of `calculate_signals`: the
strategy state afterwards, the signal events put on the queue (in order),
whether the data handler was queried and with which `N`, the feature
vector passed to `model.predict` (if any), and the error raised (if any).
On an error the state records the mutations already applied before the
raise and `signals` is empty. -/
structure StepResult where
  state : StrategyState
  signals : List SignalEvent
  queriedBars : Bool
  requestedN : Option Nat
  features : Option (ℚ × ℚ)
  error : Option StratError
deriving DecidableEq, Repr

/-- The two sequential `if` statements at the end of `calculate_signals`
(source lines 147-155): given the symbol, the construction timestamp,
the current `long_market` flag and the prediction, return the updated
flag and the signal events put on the queue, in order.  The second `if`
reads `self.long_market` as already updated by the first, exactly as in
the source. -/
def applyPrediction (sym : String) (cur_date : Int) (long_market : Bool)
    (pred : Int) : Bool × List SignalEvent :=
  let r1 : Bool × List SignalEvent :=
    if 0 < pred ∧ ¬ long_market then
      (true, [⟨1, sym, cur_date, SignalType.LONG, 1⟩])
    else
      (long_market, [])
  if pred < 0 ∧ r1.1 then
    (false, r1.2 ++ [⟨1, sym, cur_date, SignalType.EXIT, 1⟩])
  else
    r1

/-- Embedding of `SPYDailyForecastStrategy.calculate_signals`.  `predict`
is the trained classifier's `predict` applied to the two-feature vector
`(Lag1, Lag2)`; the source only tests the sign of its output.  The
length guard stands for the implicit bounds check of `lags[1]` /
`lags[2]`: with fewer than three observations the Python raises, which
the embedding records as `insufficientHistory`; past the guard the
`getD` defaults are unreachable. -/
def calculate_signals (predict : ℚ → ℚ → Int) (s : StrategyState)
    (ev : EventInput) : StepResult :=
  let sym := s.symbol_list.getD 0 ""
  let cur_date := s.datetime_now
  if ev.etype = "MARKET" then
    let s1 : StrategyState := { s with bar_index := s.bar_index + 1 }
    if 5 < s1.bar_index then
      -- lags = self.bars.get_latest_bars_values(sym, "returns", N=3)
      if 3 ≤ ev.lags.length then
        let lag1 : ℚ := ev.lags.getD 1 0 * 100
        let lag2 : ℚ := ev.lags.getD 2 0 * 100
        let pred : Int := predict lag1 lag2
        let r := applyPrediction sym cur_date s1.long_market pred
        { state := { s1 with long_market := r.1 },
          signals := r.2,
          queriedBars := true,
          requestedN := some 3,
          features := some (lag1, lag2),
          error := none }
      else
        -- IndexError from lags[1] / lags[2]: fewer than 3 observations
        { state := s1, signals := [], queriedBars := true,
          requestedN := some 3, features := none,
          error := some StratError.insufficientHistory }
    else
      { state := s1, signals := [], queriedBars := false,
        requestedN := none, features := none, error := none }
  else
    { state := s, signals := [], queriedBars := false,
      requestedN := none, features := none, error := none }

/-- The driver loop: feed a list of events to the strategy in order,
collecting the emitted signals.  An error aborts the run (construction
and per-event errors are fatal per the spec's propagation policy). -/
def run (predict : ℚ → ℚ → Int) (s : StrategyState) :
    List EventInput → StrategyState × List SignalEvent
  | [] => (s, [])
  | ev :: evs =>
    let r := calculate_signals predict s ev
    match r.error with
    | some _ => (r.state, r.signals)
    | none =>
      let rest := run predict r.state evs
      (rest.1, r.signals ++ rest.2)

/-- The state of a freshly constructed strategy: `long_market = False`,
`short_market = False`, `bar_index = 0`, with the construction-time
timestamp `t` (`dt.datetime.utcnow()`) and symbol list. -/
def initState (syms : List String) (t : Int) : StrategyState :=
  { symbol_list := syms, datetime_now := t,
    long_market := false, short_market := false, bar_index := 0 }

/-- One row of the date-indexed lagged-return table produced by the
external `create_lagged_series` builder: `lags` holds the columns
`Lag1, Lag2, ...` (index `i` is column `Lag(i+1)`); `direction` is the
discretized sign label. -/
structure LagRow where
  date : Int
  lags : List ℚ
  direction : Int
deriving DecidableEq, Repr

/-- Construction-time error taxonomy (spec §7): invalid lag
configuration, or degenerate training data. -/
inductive BuildError where
  | configurationError
  | trainingError
deriving DecidableEq, Repr

/-- The trained model as an opaque artifact: the record of exactly what
was passed to the classifier's `fit`, together with the held-out test
partition and the lag count requested from the series builder.  Feature
rows keep their date index, mirroring the pandas date-indexed frames. -/
structure FitCall where
  lagsRequested : Nat
  X_train : List (Int × ℚ × ℚ)
  y_train : List (Int × Int)
  X_test : List (Int × ℚ × ℚ)
  y_test : List (Int × Int)
deriving DecidableEq, Repr

/-- Column selection `snpret[["Lag1", "Lag2"]]`: the date-indexed pairs
of the first two lag columns. -/
def laggedX (snpret : List LagRow) : List (Int × ℚ × ℚ) :=
  snpret.map (fun r => (r.date, r.lags.getD 0 0, r.lags.getD 1 0))

/-- Column selection `snpret[["Direction"]]`: the date-indexed labels. -/
def laggedY (snpret : List LagRow) : List (Int × Int) :=
  snpret.map (fun r => (r.date, r.direction))

/-- Embedding of `SPYDailyForecastStrategy.create_symbol_forecast_model`.
`clb` is the external `create_lagged_series` builder, called with the
first symbol, the model date range and `lags=5`; the `Lag1`/`Lag2`
column selection, the `index < start_test` / `index >= start_test`
partition and the `fit` call follow the source.  Modelled from the spec:
the failure modes live in the external pandas/sklearn collaborators, not
under src/ — the column lookup `snpret[["Lag1", "Lag2"]]` fails when
fewer than 2 lag columns are available (`ConfigurationError`, §4.1), and
`QDA().fit` fails when the training partition is empty or its labels
form a single class (`TrainingError`, §4.1/§7). -/
def create_symbol_forecast_model
    (clb : String → Int → Int → Nat → List LagRow)
    (symbol_list : List String)
    (model_start_date model_end_date model_start_test_date : Int) :
    Except BuildError FitCall :=
  let snpret := clb (symbol_list.getD 0 "") model_start_date model_end_date 5
  if snpret.all (fun r => 2 ≤ r.lags.length) then
    let X : List (Int × ℚ × ℚ) := laggedX snpret
    let y : List (Int × Int) := laggedY snpret
    let start_test := model_start_test_date
    let X_train := X.filter (fun p => p.1 < start_test)
    let X_test := X.filter (fun p => start_test ≤ p.1)
    let y_train := y.filter (fun p => p.1 < start_test)
    let y_test := y.filter (fun p => start_test ≤ p.1)
    if y_train.isEmpty then
      .error BuildError.trainingError
    else if y_train.all (fun p => p.2 = (y_train.headD (0, 0)).2) then
      .error BuildError.trainingError
    else
      .ok { lagsRequested := 5, X_train := X_train, y_train := y_train,
            X_test := X_test, y_test := y_test }
  else
    .error BuildError.configurationError

/-- A fully constructed strategy instance: its mutable state and the
trained model it owns. -/
structure Strategy where
  state : StrategyState
  model : FitCall
deriving DecidableEq, Repr

/-- Embedding of `SPYDailyForecastStrategy.__init__`: record the
constants, initialise the flags and the bar counter, then build the
forecast model.  A construction-time error propagates out of the
constructor, so no (partially built) `Strategy` value exists in that
case. -/
def strategyInit (clb : String → Int → Int → Nat → List LagRow)
    (syms : List String) (t : Int)
    (model_start_date model_end_date model_start_test_date : Int) :
    Except BuildError Strategy :=
  (create_symbol_forecast_model clb syms model_start_date model_end_date
      model_start_test_date).map
    (fun fc => { state := initState syms t, model := fc })

/-! ### Path equations for `calculate_signals` -/

/-- Non-market events leave everything untouched. -/
lemma calculate_signals_not_market (predict : ℚ → ℚ → Int)
    (s : StrategyState) (ev : EventInput) (hm : ev.etype ≠ "MARKET") :
    calculate_signals predict s ev =
      { state := s, signals := [], queriedBars := false,
        requestedN := none, features := none, error := none } := by
  simp [calculate_signals, hm]

/-- A market event while the incremented counter is still at most 5 only
bumps the counter. -/
lemma calculate_signals_warmup (predict : ℚ → ℚ → Int)
    (s : StrategyState) (ev : EventInput) (hm : ev.etype = "MARKET")
    (hg : s.bar_index < 5) :
    calculate_signals predict s ev =
      { state := { s with bar_index := s.bar_index + 1 }, signals := [],
        queriedBars := false, requestedN := none, features := none,
        error := none } := by
  simp [calculate_signals, hm]
  omega

/-- A market event past the gate with fewer than three returns available
raises, after the counter bump, before any signal or flag change. -/
lemma calculate_signals_short_history (predict : ℚ → ℚ → Int)
    (s : StrategyState) (ev : EventInput) (hm : ev.etype = "MARKET")
    (hg : 5 ≤ s.bar_index) (h3 : ev.lags.length < 3) :
    calculate_signals predict s ev =
      { state := { s with bar_index := s.bar_index + 1 }, signals := [],
        queriedBars := true, requestedN := some 3, features := none,
        error := some StratError.insufficientHistory } := by
  simp [calculate_signals, hm, show ¬ 3 ≤ ev.lags.length from by omega,
    show 5 < s.bar_index + 1 from by omega]

/-- A market event past the gate with enough history: bump the counter,
build the feature vector, predict, and apply the two signal branches. -/
lemma calculate_signals_market (predict : ℚ → ℚ → Int)
    (s : StrategyState) (ev : EventInput) (hm : ev.etype = "MARKET")
    (hg : 5 ≤ s.bar_index) (h3 : 3 ≤ ev.lags.length) :
    calculate_signals predict s ev =
      { state := { s with
          bar_index := s.bar_index + 1
          long_market := (applyPrediction (s.symbol_list.getD 0 "")
            s.datetime_now s.long_market
            (predict (ev.lags.getD 1 0 * 100) (ev.lags.getD 2 0 * 100))).1 },
        signals := (applyPrediction (s.symbol_list.getD 0 "")
          s.datetime_now s.long_market
          (predict (ev.lags.getD 1 0 * 100) (ev.lags.getD 2 0 * 100))).2,
        queriedBars := true,
        requestedN := some 3,
        features := some (ev.lags.getD 1 0 * 100, ev.lags.getD 2 0 * 100),
        error := none } := by
  simp [calculate_signals, hm, h3, show 5 < s.bar_index + 1 from by omega]

/-! ### Case equations for the two signal branches -/

/-- From flat, a strictly positive prediction enters long and emits one
`LONG` signal of strength 1. -/
lemma applyPrediction_flat_pos (sym : String) (d : Int) (pred : Int)
    (h : 0 < pred) :
    applyPrediction sym d false pred =
      (true, [⟨1, sym, d, SignalType.LONG, 1⟩]) := by
  simp [applyPrediction, h, not_lt.mpr h.le]

/-- From flat, a non-positive prediction does nothing. -/
lemma applyPrediction_flat_nonpos (sym : String) (d : Int) (pred : Int)
    (h : pred ≤ 0) :
    applyPrediction sym d false pred = (false, []) := by
  simp [applyPrediction, not_lt.mpr h]

/-- From long, a strictly negative prediction exits and emits one `EXIT`
signal of strength 1. -/
lemma applyPrediction_long_neg (sym : String) (d : Int) (pred : Int)
    (h : pred < 0) :
    applyPrediction sym d true pred =
      (false, [⟨1, sym, d, SignalType.EXIT, 1⟩]) := by
  simp [applyPrediction, h]

/-- From long, a non-negative prediction does nothing. -/
lemma applyPrediction_long_nonneg (sym : String) (d : Int) (pred : Int)
    (h : 0 ≤ pred) :
    applyPrediction sym d true pred = (true, []) := by
  simp [applyPrediction, not_lt.mpr h]

/-- Exhaustive case split for one application of the two branches: either
nothing happens, or a single `LONG` signal fires from flat, or a single
`EXIT` signal fires from long. -/
lemma applyPrediction_cases (sym : String) (d : Int) (lm : Bool)
    (pred : Int) :
    applyPrediction sym d lm pred = (lm, [])
    ∨ (lm = false ∧ applyPrediction sym d lm pred =
        (true, [⟨1, sym, d, SignalType.LONG, 1⟩]))
    ∨ (lm = true ∧ applyPrediction sym d lm pred =
        (false, [⟨1, sym, d, SignalType.EXIT, 1⟩])) := by
  cases lm with
  | false =>
    rcases le_or_lt pred 0 with h | h
    · exact Or.inl (applyPrediction_flat_nonpos sym d pred h)
    · exact Or.inr (Or.inl ⟨rfl, applyPrediction_flat_pos sym d pred h⟩)
  | true =>
    rcases lt_or_le pred 0 with h | h
    · exact Or.inr (Or.inr ⟨rfl, applyPrediction_long_neg sym d pred h⟩)
    · exact Or.inl (applyPrediction_long_nonneg sym d pred h)

/-- Exhaustive case split for one call of `calculate_signals`: either no
signal is emitted and the position flag is unchanged, or a single `LONG`
signal fires from flat and the flag becomes true, or a single `EXIT`
signal fires from long and the flag becomes false. -/
lemma calculate_signals_cases (predict : ℚ → ℚ → Int) (s : StrategyState)
    (ev : EventInput) :
    ((calculate_signals predict s ev).signals = []
      ∧ (calculate_signals predict s ev).state.long_market = s.long_market)
    ∨ (s.long_market = false
      ∧ (calculate_signals predict s ev).state.long_market = true
      ∧ (calculate_signals predict s ev).signals =
          [⟨1, s.symbol_list.getD 0 "", s.datetime_now, SignalType.LONG, 1⟩])
    ∨ (s.long_market = true
      ∧ (calculate_signals predict s ev).state.long_market = false
      ∧ (calculate_signals predict s ev).signals =
          [⟨1, s.symbol_list.getD 0 "", s.datetime_now, SignalType.EXIT, 1⟩]) := by
  by_cases hm : ev.etype = "MARKET"
  · by_cases hg : s.bar_index < 5
    · rw [calculate_signals_warmup predict s ev hm hg]
      exact Or.inl ⟨rfl, rfl⟩
    · push_neg at hg
      by_cases h3 : 3 ≤ ev.lags.length
      · have hstep := calculate_signals_market predict s ev hm hg h3
        rcases applyPrediction_cases (s.symbol_list.getD 0 "") s.datetime_now
            s.long_market
            (predict (ev.lags.getD 1 0 * 100) (ev.lags.getD 2 0 * 100)) with
          h | ⟨hlm, h⟩ | ⟨hlm, h⟩
        · refine Or.inl ⟨?_, ?_⟩ <;> simp only [hstep, h]
        · refine Or.inr (Or.inl ⟨hlm, ?_, ?_⟩) <;> simp only [hstep, h]
        · refine Or.inr (Or.inr ⟨hlm, ?_, ?_⟩) <;> simp only [hstep, h]
      · push_neg at h3
        rw [calculate_signals_short_history predict s ev hm hg h3]
        exact Or.inl ⟨rfl, rfl⟩
  · rw [calculate_signals_not_market predict s ev hm]
    exact Or.inl ⟨rfl, rfl⟩

/-- The direction of the next signal that may be emitted from a given
position flag: `LONG` from flat, `EXIT` from long. -/
def entryDir (lm : Bool) : SignalType :=
  if lm then SignalType.EXIT else SignalType.LONG

/-- A signal trace alternates correctly when read from position flag
`lm`: its first signal (if any) is `entryDir lm` and the rest alternates
from the flipped flag. -/
def AltFrom : Bool → List SignalEvent → Prop
  | _, [] => True
  | lm, a :: rest => a.signal_type = entryDir lm ∧ AltFrom (!lm) rest

lemma entryDir_ne_not (lm : Bool) : entryDir lm ≠ entryDir (!lm) := by
  cases lm <;> simp [entryDir]

lemma altFrom_head (lm : Bool) (sigs : List SignalEvent)
    (h : AltFrom lm sigs) :
    ∀ a ∈ sigs.head?, a.signal_type = entryDir lm := by
  cases sigs with
  | nil => simp
  | cons a rest => simpa using h.1

/-- An alternating trace has no two adjacent signals with the same
direction. -/
lemma altFrom_chain (sigs : List SignalEvent) : ∀ lm, AltFrom lm sigs →
    List.Chain' (fun a b => a.signal_type ≠ b.signal_type) sigs := by
  induction sigs with
  | nil => intro lm _; simp
  | cons a rest ih =>
    intro lm h
    rw [List.chain'_cons']
    refine ⟨?_, ih (!lm) h.2⟩
    intro b hb
    have hbty := altFrom_head (!lm) rest h.2 b hb
    rw [h.1, hbty]
    exact entryDir_ne_not lm

/-- Unfolding equation for `run` on a non-empty event list. -/
lemma run_cons (predict : ℚ → ℚ → Int) (s : StrategyState)
    (ev : EventInput) (evs : List EventInput) :
    run predict s (ev :: evs) =
      if (calculate_signals predict s ev).error = none then
        ((run predict (calculate_signals predict s ev).state evs).1,
         (calculate_signals predict s ev).signals
           ++ (run predict (calculate_signals predict s ev).state evs).2)
      else ((calculate_signals predict s ev).state,
            (calculate_signals predict s ev).signals) := by
  simp only [run]
  rcases h : (calculate_signals predict s ev).error with _ | e
  · simp [h]
  · simp [h]

/-- Every run's signal trace alternates when read from the position flag
of the starting state. -/
lemma run_altFrom (predict : ℚ → ℚ → Int) :
    ∀ (evs : List EventInput) (s : StrategyState),
      AltFrom s.long_market (run predict s evs).2 := by
  intro evs
  induction evs with
  | nil => intro s; simp [run, AltFrom]
  | cons ev evs ih =>
    intro s
    rw [run_cons]
    have hstep : AltFrom s.long_market (calculate_signals predict s ev).signals
        ∧ ((calculate_signals predict s ev).signals = [] →
            (calculate_signals predict s ev).state.long_market = s.long_market)
        ∧ ((calculate_signals predict s ev).signals ≠ [] →
            (calculate_signals predict s ev).state.long_market = !s.long_market) := by
      rcases calculate_signals_cases predict s ev with
        ⟨hsig, hlm⟩ | ⟨hlm0, hlm1, hsig⟩ | ⟨hlm0, hlm1, hsig⟩
      · exact ⟨by simp [hsig, AltFrom], fun _ => hlm, fun hc => absurd hsig hc⟩
      · exact ⟨by simp [hsig, AltFrom, entryDir, hlm0], fun hc => by simp [hsig] at hc,
          fun _ => by simp [hlm0, hlm1]⟩
      · exact ⟨by simp [hsig, AltFrom, entryDir, hlm0], fun hc => by simp [hsig] at hc,
          fun _ => by simp [hlm0, hlm1]⟩
    by_cases herr : (calculate_signals predict s ev).error = none
    · rw [if_pos herr]
      have htail := ih (calculate_signals predict s ev).state
      rcases hsig : (calculate_signals predict s ev).signals with _ | ⟨a, rest⟩
      · simp only [List.nil_append]
        rw [← hstep.2.1 hsig]
        exact htail
      · have hone : rest = [] := by
          rcases calculate_signals_cases predict s ev with
            ⟨h, _⟩ | ⟨_, _, h⟩ | ⟨_, _, h⟩ <;> rw [hsig] at h <;>
            simp at h <;> tauto
        subst hone
        simp only [List.cons_append, List.nil_append]
        have ha : a.signal_type = entryDir s.long_market := by
          have := hstep.1
          rw [hsig] at this
          exact this.1
        refine ⟨ha, ?_⟩
        have hflip := hstep.2.2 (by rw [hsig]; simp)
        rw [← hflip]
        exact htail
    · rw [if_neg herr]
      exact hstep.1

/-- One call of `calculate_signals` never changes the construction-time
constants, and stamps every emitted signal with `datetime_now`. -/
lemma calculate_signals_consts (predict : ℚ → ℚ → Int) (s : StrategyState)
    (ev : EventInput) :
    (calculate_signals predict s ev).state.datetime_now = s.datetime_now
    ∧ (calculate_signals predict s ev).state.symbol_list = s.symbol_list
    ∧ ∀ sig ∈ (calculate_signals predict s ev).signals,
        sig.datetime = s.datetime_now := by
  by_cases hm : ev.etype = "MARKET"
  · by_cases hg : s.bar_index < 5
    · rw [calculate_signals_warmup predict s ev hm hg]; simp
    · push_neg at hg
      by_cases h3 : 3 ≤ ev.lags.length
      · refine ⟨?_, ?_, ?_⟩
        · rw [calculate_signals_market predict s ev hm hg h3]
        · rw [calculate_signals_market predict s ev hm hg h3]
        · rcases calculate_signals_cases predict s ev with
            ⟨hsig, _⟩ | ⟨_, _, hsig⟩ | ⟨_, _, hsig⟩ <;> rw [hsig] <;> simp
      · push_neg at h3
        rw [calculate_signals_short_history predict s ev hm hg h3]; simp
  · rw [calculate_signals_not_market predict s ev hm]; simp

/-- Every signal in a run's trace carries the `datetime_now` of the
starting state. -/
lemma run_datetime (predict : ℚ → ℚ → Int) :
    ∀ (evs : List EventInput) (s : StrategyState),
      ∀ sig ∈ (run predict s evs).2, sig.datetime = s.datetime_now := by
  intro evs
  induction evs with
  | nil => intro s; simp [run]
  | cons ev evs ih =>
    intro s sig hsig
    have hc := calculate_signals_consts predict s ev
    rw [run_cons] at hsig
    by_cases herr : (calculate_signals predict s ev).error = none
    · rw [if_pos herr] at hsig
      simp only [List.mem_append] at hsig
      rcases hsig with hsig | hsig
      · exact hc.2.2 sig hsig
      · have := ih (calculate_signals predict s ev).state sig hsig
        rw [this, hc.1]
    · rw [if_neg herr] at hsig
      exact hc.2.2 sig hsig

/-- While the warm-up counter (market events observed so far plus the
counter's starting value) cannot exceed 5, a run emits nothing. -/
lemma run_warmup (predict : ℚ → ℚ → Int) :
    ∀ (evs : List EventInput) (s : StrategyState),
      s.bar_index + evs.countP (fun e => e.etype == "MARKET") ≤ 5 →
      (run predict s evs).2 = [] := by
  intro evs
  induction evs with
  | nil => intro s _; simp [run]
  | cons ev evs ih =>
    intro s hcount
    by_cases hm : ev.etype = "MARKET"
    · have hcnt : (ev :: evs).countP (fun e => e.etype == "MARKET")
          = evs.countP (fun e => e.etype == "MARKET") + 1 := by
        simp [List.countP_cons, hm]
      rw [hcnt] at hcount
      have hg : s.bar_index < 5 := by omega
      have hstep := calculate_signals_warmup predict s ev hm hg
      simp only [run, hstep, List.nil_append]
      exact ih _ (by simp; omega)
    · have hcnt : (ev :: evs).countP (fun e => e.etype == "MARKET")
          = evs.countP (fun e => e.etype == "MARKET") := by
        simp [List.countP_cons, hm]
      rw [hcnt] at hcount
      have hstep := calculate_signals_not_market predict s ev hm
      simp only [run, hstep, List.nil_append]
      exact ih _ hcount

/-- The two signal branches depend on the prediction only through its
sign. -/
lemma applyPrediction_sign_congr (sym : String) (d : Int) (lm : Bool)
    (p q : Int) (h : p.sign = q.sign) :
    applyPrediction sym d lm p = applyPrediction sym d lm q := by
  have hpos : 0 < p ↔ 0 < q := by
    rw [← Int.sign_eq_one_iff_pos, ← Int.sign_eq_one_iff_pos, h]
  have hneg : p < 0 ↔ q < 0 := by
    rw [← Int.sign_eq_neg_one_iff_neg, ← Int.sign_eq_neg_one_iff_neg, h]
  simp only [applyPrediction, hpos, hneg]

/-! ### Concrete instances used in witness statements -/

/-- A flat strategy state whose warm-up is complete (five market events
already observed). -/
def exSt : StrategyState :=
  { symbol_list := ["SPY"], datetime_now := 42, long_market := false,
    short_market := false, bar_index := 5 }

/-- A flat strategy state past warm-up with a different event count. -/
def exStB : StrategyState :=
  { symbol_list := ["SPY"], datetime_now := 42, long_market := false,
    short_market := false, bar_index := 7 }

/-- A market event with three observed returns. -/
def exEv : EventInput := { etype := "MARKET", lags := [0, 0, 0] }

/-- A market event with four observed returns. -/
def exEv4 : EventInput := { etype := "MARKET", lags := [0, 0, 0, 0] }

/-- A market event with a single observed return. -/
def exEvShort : EventInput := { etype := "MARKET", lags := [0] }

/-- A fill event (non-market). -/
def exEvFill : EventInput := { etype := "FILL", lags := [0, 0, 0] }

/-! ### Claims -/

/-- C1: after the warm-up gate has opened, each qualifying market event
follows the transition table: from flat a strictly positive prediction
emits exactly one `LONG` signal of size 1.0 and moves to long; from flat
a non-positive prediction (including exactly 0) emits nothing and stays
flat; from long a strictly negative prediction emits exactly one `EXIT`
signal of size 1.0 and moves to flat; from long a non-negative
prediction (including exactly 0) emits nothing and stays long. -/
theorem calculate_signals_follows_transition_table
    (predict : ℚ → ℚ → Int) (s : StrategyState) (ev : EventInput)
    (hm : ev.etype = "MARKET") (hg : 5 ≤ s.bar_index)
    (h3 : 3 ≤ ev.lags.length) :
    (s.long_market = false →
      0 < predict (ev.lags.getD 1 0 * 100) (ev.lags.getD 2 0 * 100) →
      (calculate_signals predict s ev).signals =
        [⟨1, s.symbol_list.getD 0 "", s.datetime_now, SignalType.LONG, 1⟩]
      ∧ (calculate_signals predict s ev).state.long_market = true)
    ∧ (s.long_market = false →
      predict (ev.lags.getD 1 0 * 100) (ev.lags.getD 2 0 * 100) ≤ 0 →
      (calculate_signals predict s ev).signals = []
      ∧ (calculate_signals predict s ev).state.long_market = false)
    ∧ (s.long_market = true →
      predict (ev.lags.getD 1 0 * 100) (ev.lags.getD 2 0 * 100) < 0 →
      (calculate_signals predict s ev).signals =
        [⟨1, s.symbol_list.getD 0 "", s.datetime_now, SignalType.EXIT, 1⟩]
      ∧ (calculate_signals predict s ev).state.long_market = false)
    ∧ (s.long_market = true →
      0 ≤ predict (ev.lags.getD 1 0 * 100) (ev.lags.getD 2 0 * 100) →
      (calculate_signals predict s ev).signals = []
      ∧ (calculate_signals predict s ev).state.long_market = true) := by
  have hstep := calculate_signals_market predict s ev hm hg h3
  refine ⟨fun hlm hp => ?_, fun hlm hp => ?_, fun hlm hp => ?_,
    fun hlm hp => ?_⟩
  · have h := applyPrediction_flat_pos (s.symbol_list.getD 0 "")
      s.datetime_now _ hp
    exact ⟨by simp only [hstep, hlm, h], by simp only [hstep, hlm, h]⟩
  · have h := applyPrediction_flat_nonpos (s.symbol_list.getD 0 "")
      s.datetime_now _ hp
    exact ⟨by simp only [hstep, hlm, h], by simp only [hstep, hlm, h]⟩
  · have h := applyPrediction_long_neg (s.symbol_list.getD 0 "")
      s.datetime_now _ hp
    exact ⟨by simp only [hstep, hlm, h], by simp only [hstep, hlm, h]⟩
  · have h := applyPrediction_long_nonneg (s.symbol_list.getD 0 "")
      s.datetime_now _ hp
    exact ⟨by simp only [hstep, hlm, h], by simp only [hstep, hlm, h]⟩

/-- Concrete instance of C1: from flat with prediction +1 past the gate,
one `LONG` signal fires and the state moves to long. -/
theorem calculate_signals_follows_transition_table_witness :
    (calculate_signals (fun _ _ => (1 : Int)) exSt exEv).signals =
      [⟨1, "SPY", 42, SignalType.LONG, 1⟩]
    ∧ (calculate_signals (fun _ _ => (1 : Int)) exSt exEv).state.long_market
      = true :=
  (calculate_signals_follows_transition_table (fun _ _ => (1 : Int)) exSt exEv
    rfl (by decide) (by decide)).1 rfl (by decide)

/-- C2: while the warm-up counter is at most 5 no signal is emitted, the
data handler is not queried and no prediction is made, whatever the
classifier does; on market events the handler is queried exactly when
the counter has exceeded 5; and a run whose stream holds at most five
market events emits no signal at all. -/
theorem warmup_gate_blocks_signals (predict : ℚ → ℚ → Int)
    (s : StrategyState) (ev : EventInput) (syms : List String) (t : Int)
    (evs : List EventInput) :
    ((calculate_signals predict s ev).state.bar_index ≤ 5 →
      (calculate_signals predict s ev).signals = []
      ∧ (calculate_signals predict s ev).queriedBars = false
      ∧ (calculate_signals predict s ev).features = none)
    ∧ (ev.etype = "MARKET" →
      ((calculate_signals predict s ev).queriedBars = true
        ↔ 5 < (calculate_signals predict s ev).state.bar_index))
    ∧ (evs.countP (fun e => e.etype == "MARKET") ≤ 5 →
      (run predict (initState syms t) evs).2 = []) := by
  refine ⟨?_, ?_, fun h => run_warmup predict evs (initState syms t)
    (by simpa [initState] using h)⟩
  · intro hb
    by_cases hm : ev.etype = "MARKET"
    · by_cases hg : s.bar_index < 5
      · rw [calculate_signals_warmup predict s ev hm hg]
        exact ⟨rfl, rfl, rfl⟩
      · push_neg at hg
        exfalso
        by_cases h3 : 3 ≤ ev.lags.length
        · rw [calculate_signals_market predict s ev hm hg h3] at hb
          simp at hb
          omega
        · push_neg at h3
          rw [calculate_signals_short_history predict s ev hm hg h3] at hb
          simp at hb
          omega
    · rw [calculate_signals_not_market predict s ev hm]
      exact ⟨rfl, rfl, rfl⟩
  · intro hm
    by_cases hg : s.bar_index < 5
    · rw [calculate_signals_warmup predict s ev hm hg]
      simp
      omega
    · push_neg at hg
      by_cases h3 : 3 ≤ ev.lags.length
      · rw [calculate_signals_market predict s ev hm hg h3]
        simp
        omega
      · push_neg at h3
        rw [calculate_signals_short_history predict s ev hm hg h3]
        simp
        omega

/-- Concrete instance of C2: a single market event from a fresh strategy
(one market event observed, below the threshold) emits nothing. -/
theorem warmup_gate_blocks_signals_witness :
    (run (fun _ _ => (1 : Int)) (initState ["SPY"] 42) [exEv]).2 = [] :=
  (warmup_gate_blocks_signals (fun _ _ => (1 : Int)) exSt exEv ["SPY"] 42
    [exEv]).2.2 (by decide)

/-- C3: emitted signals strictly alternate: a `LONG` signal is only ever
emitted from the flat state and an `EXIT` signal only from the long
state; hence in any run from the initial state no two adjacent signals
share a direction and the first signal, if any, is `LONG`. -/
theorem emitted_signals_alternate (predict : ℚ → ℚ → Int)
    (syms : List String) (t : Int) (evs : List EventInput)
    (s : StrategyState) (ev : EventInput) (sig : SignalEvent) :
    (List.Chain' (fun a b => a.signal_type ≠ b.signal_type)
        (run predict (initState syms t) evs).2
      ∧ ∀ a ∈ (run predict (initState syms t) evs).2.head?,
          a.signal_type = SignalType.LONG)
    ∧ (sig ∈ (calculate_signals predict s ev).signals →
        (sig.signal_type = SignalType.LONG → s.long_market = false)
        ∧ (sig.signal_type = SignalType.EXIT → s.long_market = true)) := by
  constructor
  · have h := run_altFrom predict evs (initState syms t)
    refine ⟨altFrom_chain _ _ h, ?_⟩
    have hh := altFrom_head _ _ h
    simpa [initState, entryDir] using hh
  · intro hmem
    rcases calculate_signals_cases predict s ev with
      ⟨hsig, _⟩ | ⟨hlm, _, hsig⟩ | ⟨hlm, _, hsig⟩
    · rw [hsig] at hmem
      simp at hmem
    · rw [hsig, List.mem_singleton] at hmem
      subst hmem
      exact ⟨fun _ => hlm, fun hc => by simp at hc⟩
    · rw [hsig, List.mem_singleton] at hmem
      subst hmem
      exact ⟨fun hc => by simp at hc, fun _ => hlm⟩

/-- Concrete instance of C3: the single `LONG` signal emitted by a
market event past the gate was emitted from the flat state. -/
theorem emitted_signals_alternate_witness : exSt.long_market = false :=
  ((emitted_signals_alternate (fun _ _ => (1 : Int)) ["SPY"] 42 [] exSt exEv
      ⟨1, "SPY", 42, SignalType.LONG, 1⟩).2 (by decide)).1 rfl

/-- C4: after the gate opens, the data handler is asked for exactly 3
returns and the feature vector is exactly
`(returns[1]*100, returns[2]*100)`; the most recent return (index 0)
never enters the features — replacing it changes nothing. -/
theorem features_use_prior_lags_only (predict : ℚ → ℚ → Int)
    (s : StrategyState) (ev : EventInput) (hm : ev.etype = "MARKET")
    (hg : 5 ≤ s.bar_index) (h3 : 3 ≤ ev.lags.length) :
    (calculate_signals predict s ev).requestedN = some 3
    ∧ (calculate_signals predict s ev).features =
        some (ev.lags.getD 1 0 * 100, ev.lags.getD 2 0 * 100)
    ∧ ∀ x : ℚ,
        (calculate_signals predict s
            { ev with lags := x :: ev.lags.tail }).features =
          (calculate_signals predict s ev).features := by
  have hstep := calculate_signals_market predict s ev hm hg h3
  refine ⟨by simp only [hstep], by simp only [hstep], ?_⟩
  intro x
  rcases ev with ⟨et, lags⟩
  rcases lags with _ | ⟨a, rest⟩
  · simp at h3
  · have h3' : 3 ≤ (EventInput.mk et (x :: (a :: rest).tail)).lags.length := by
      simpa using h3
    have hstep' := calculate_signals_market predict s
      (EventInput.mk et (x :: (a :: rest).tail)) hm hg h3'
    simp only [hstep, hstep']
    simp

/-- Concrete instance of C4: with returns feed `[0, 0, 0]` the feature
vector is the scaled first and second lags. -/
theorem features_use_prior_lags_only_witness :
    (calculate_signals (fun _ _ => (1 : Int)) exSt exEv).features =
      some (exEv.lags.getD 1 0 * 100, exEv.lags.getD 2 0 * 100) :=
  (features_use_prior_lags_only (fun _ _ => (1 : Int)) exSt exEv rfl
    (by decide) (by decide)).2.1

/-- C7: with the gate open, a market event for which the data handler
returned fewer than three observations fails with the
insufficient-history error; on that (and every) error path no signal is
emitted and the position flag is unchanged. -/
theorem insufficient_history_error_path (predict : ℚ → ℚ → Int)
    (s : StrategyState) (ev : EventInput) :
    (ev.etype = "MARKET" → 5 ≤ s.bar_index → ev.lags.length < 3 →
      (calculate_signals predict s ev).error =
        some StratError.insufficientHistory)
    ∧ (∀ e, (calculate_signals predict s ev).error = some e →
      e = StratError.insufficientHistory
      ∧ (calculate_signals predict s ev).signals = []
      ∧ (calculate_signals predict s ev).state.long_market
        = s.long_market) := by
  constructor
  · intro hm hg h3
    rw [calculate_signals_short_history predict s ev hm hg h3]
  · intro e he
    have hee : e = StratError.insufficientHistory := by cases e; rfl
    by_cases hm : ev.etype = "MARKET"
    · by_cases hg : s.bar_index < 5
      · rw [calculate_signals_warmup predict s ev hm hg] at he
        simp at he
      · push_neg at hg
        by_cases h3 : 3 ≤ ev.lags.length
        · rw [calculate_signals_market predict s ev hm hg h3] at he
          simp at he
        · push_neg at h3
          refine ⟨hee, ?_, ?_⟩ <;>
            rw [calculate_signals_short_history predict s ev hm hg h3]
    · rw [calculate_signals_not_market predict s ev hm] at he
      simp at he

/-- Concrete instance of C7: a market event past the gate with a single
observed return raises the insufficient-history error. -/
theorem insufficient_history_error_path_witness :
    (calculate_signals (fun _ _ => (1 : Int)) exSt exEvShort).error =
      some StratError.insufficientHistory :=
  (insufficient_history_error_path (fun _ _ => (1 : Int)) exSt exEvShort).1
    rfl (by decide) (by decide)

/-- C8: every signal emitted during a whole run carries the single
timestamp captured at strategy construction, whatever event triggered
it. -/
theorem signals_share_construction_timestamp (predict : ℚ → ℚ → Int)
    (syms : List String) (t : Int) (evs : List EventInput)
    (sig : SignalEvent)
    (h : sig ∈ (run predict (initState syms t) evs).2) :
    sig.datetime = t :=
  run_datetime predict evs (initState syms t) sig h

/-- Concrete instance of C8: the signal emitted on the sixth market
event of a run carries the construction timestamp 42. -/
theorem signals_share_construction_timestamp_witness :
    (⟨1, "SPY", 42, SignalType.LONG, 1⟩ : SignalEvent).datetime = 42 :=
  signals_share_construction_timestamp (fun _ _ => (1 : Int)) ["SPY"] 42
    (List.replicate 6 exEv) ⟨1, "SPY", 42, SignalType.LONG, 1⟩ (by decide)

/-- C9: past the warm-up gate the transition is a pure function of the
pair (position flag, prediction sign): two invocations agreeing on the
construction constants, the position flag and the prediction sign — but
possibly differing in event count, feed contents and classifier — yield
the same emitted signals and the same next position flag. -/
theorem transition_pure_in_state_and_sign
    (predictA predictB : ℚ → ℚ → Int) (sa sb : StrategyState)
    (eva evb : EventInput)
    (hma : eva.etype = "MARKET") (hmb : evb.etype = "MARKET")
    (hga : 5 ≤ sa.bar_index) (hgb : 5 ≤ sb.bar_index)
    (hla : 3 ≤ eva.lags.length) (hlb : 3 ≤ evb.lags.length)
    (hsym : sa.symbol_list.getD 0 "" = sb.symbol_list.getD 0 "")
    (hdt : sa.datetime_now = sb.datetime_now)
    (hlm : sa.long_market = sb.long_market)
    (hsign : (predictA (eva.lags.getD 1 0 * 100) (eva.lags.getD 2 0 * 100)).sign
      = (predictB (evb.lags.getD 1 0 * 100) (evb.lags.getD 2 0 * 100)).sign) :
    (calculate_signals predictA sa eva).signals
      = (calculate_signals predictB sb evb).signals
    ∧ (calculate_signals predictA sa eva).state.long_market
      = (calculate_signals predictB sb evb).state.long_market := by
  have ha := calculate_signals_market predictA sa eva hma hga hla
  have hb := calculate_signals_market predictB sb evb hmb hgb hlb
  have hap : applyPrediction (sa.symbol_list.getD 0 "") sa.datetime_now
        sa.long_market
        (predictA (eva.lags.getD 1 0 * 100) (eva.lags.getD 2 0 * 100))
      = applyPrediction (sb.symbol_list.getD 0 "") sb.datetime_now
        sb.long_market
        (predictB (evb.lags.getD 1 0 * 100) (evb.lags.getD 2 0 * 100)) := by
    rw [hsym, hdt, hlm]
    exact applyPrediction_sign_congr _ _ _ _ _ hsign
  exact ⟨by simp only [ha, hb, hap], by simp only [ha, hb, hap]⟩

/-- Concrete instance of C9: predictions +1 and +5 at different event
counts (5 and 7 market events seen) and different feeds produce the same
signal and the same next flag. -/
theorem transition_pure_in_state_and_sign_witness :
    (calculate_signals (fun _ _ => (1 : Int)) exSt exEv).signals
      = (calculate_signals (fun _ _ => (5 : Int)) exStB exEv4).signals
    ∧ (calculate_signals (fun _ _ => (1 : Int)) exSt exEv).state.long_market
      = (calculate_signals (fun _ _ => (5 : Int)) exStB exEv4).state.long_market :=
  transition_pure_in_state_and_sign (fun _ _ => (1 : Int))
    (fun _ _ => (5 : Int)) exSt exStB exEv exEv4 rfl rfl (by decide)
    (by decide) (by decide) (by decide) rfl rfl rfl (by decide)

/-- C10: an event whose type is not `'MARKET'` is a complete no-op: the
state (warm-up counter and position flag included) is unchanged, the
data handler is not queried, no prediction is made, no error is raised
and nothing is put on the queue. -/
theorem non_market_event_noop (predict : ℚ → ℚ → Int) (s : StrategyState)
    (ev : EventInput) (hm : ev.etype ≠ "MARKET") :
    calculate_signals predict s ev =
      { state := s, signals := [], queriedBars := false,
        requestedN := none, features := none, error := none } :=
  calculate_signals_not_market predict s ev hm

/-- Concrete instance of C10: a fill event leaves the strategy
untouched. -/
theorem non_market_event_noop_witness :
    calculate_signals (fun _ _ => (1 : Int)) exSt exEvFill =
      { state := exSt, signals := [], queriedBars := false,
        requestedN := none, features := none, error := none } :=
  non_market_event_noop (fun _ _ => (1 : Int)) exSt exEvFill (by decide)

/-- A lagged-series builder returning three well-formed rows (five lag
columns each, two label classes) with dates 0, 1 and 10. -/
def exClb : String → Int → Int → Nat → List LagRow :=
  fun _ _ _ _ =>
    [⟨0, [1, 2, 3, 4, 5], 1⟩, ⟨1, [1, 2, 3, 4, 5], -1⟩,
     ⟨10, [1, 2, 3, 4, 5], 1⟩]

/-- The fit call produced from `exClb` with test cutoff 5. -/
def exFit : FitCall :=
  { lagsRequested := 5, X_train := [(0, 1, 2), (1, 1, 2)],
    y_train := [(0, 1), (1, -1)], X_test := [(10, 1, 2)],
    y_test := [(10, 1)] }

/-- A lagged-series builder returning a row with a single lag column. -/
def exClbBad : String → Int → Int → Nat → List LagRow :=
  fun _ _ _ _ => [⟨0, [1], 1⟩]

/-- C5: model construction requests the lagged series with `lags = 5`
but fits on exactly the `Lag1`/`Lag2` columns, and partitions the rows
by the test cutoff: the training partition holds exactly the rows dated
strictly before the cutoff and the test partition exactly the rows
dated on or after it. -/
theorem model_build_selects_and_partitions
    (clb : String → Int → Int → Nat → List LagRow)
    (syms : List String) (d0 d1 dtest : Int) (fc : FitCall)
    (hok : create_symbol_forecast_model clb syms d0 d1 dtest
      = Except.ok fc) :
    fc.lagsRequested = 5
    ∧ (∀ p ∈ fc.X_train, p.1 < dtest)
    ∧ (∀ p ∈ fc.X_test, dtest ≤ p.1)
    ∧ (∀ p ∈ fc.y_train, p.1 < dtest)
    ∧ (∀ p ∈ fc.y_test, dtest ≤ p.1)
    ∧ (∀ p ∈ fc.X_train, ∃ r ∈ clb (syms.getD 0 "") d0 d1 5,
        p = (r.date, r.lags.getD 0 0, r.lags.getD 1 0))
    ∧ (∀ p ∈ fc.X_test, ∃ r ∈ clb (syms.getD 0 "") d0 d1 5,
        p = (r.date, r.lags.getD 0 0, r.lags.getD 1 0))
    ∧ (∀ r ∈ clb (syms.getD 0 "") d0 d1 5,
        (r.date < dtest →
          (r.date, r.lags.getD 0 0, r.lags.getD 1 0) ∈ fc.X_train
          ∧ (r.date, r.direction) ∈ fc.y_train)
        ∧ (dtest ≤ r.date →
          (r.date, r.lags.getD 0 0, r.lags.getD 1 0) ∈ fc.X_test
          ∧ (r.date, r.direction) ∈ fc.y_test)) := by
  simp only [create_symbol_forecast_model] at hok
  split_ifs at hok with hcols hemp hdeg
  rw [Except.ok.injEq] at hok
  subst hok
  refine ⟨rfl, ?_, ?_, ?_, ?_, ?_, ?_, ?_⟩
  · intro p hp
    simp only [List.mem_filter, decide_eq_true_eq] at hp
    exact hp.2
  · intro p hp
    simp only [List.mem_filter, decide_eq_true_eq] at hp
    exact hp.2
  · intro p hp
    simp only [List.mem_filter, decide_eq_true_eq] at hp
    exact hp.2
  · intro p hp
    simp only [List.mem_filter, decide_eq_true_eq] at hp
    exact hp.2
  · intro p hp
    simp only [List.mem_filter, decide_eq_true_eq, laggedX,
      List.mem_map] at hp
    rcases hp.1 with ⟨r, hr, hpr⟩
    exact ⟨r, hr, hpr.symm⟩
  · intro p hp
    simp only [List.mem_filter, decide_eq_true_eq, laggedX,
      List.mem_map] at hp
    rcases hp.1 with ⟨r, hr, hpr⟩
    exact ⟨r, hr, hpr.symm⟩
  · intro r hr
    constructor
    · intro hd
      constructor
      · simp only [List.mem_filter, decide_eq_true_eq, laggedX,
          List.mem_map]
        exact ⟨⟨r, hr, rfl⟩, hd⟩
      · simp only [List.mem_filter, decide_eq_true_eq, laggedY,
          List.mem_map]
        exact ⟨⟨r, hr, rfl⟩, hd⟩
    · intro hd
      constructor
      · simp only [List.mem_filter, decide_eq_true_eq, laggedX,
          List.mem_map]
        exact ⟨⟨r, hr, rfl⟩, hd⟩
      · simp only [List.mem_filter, decide_eq_true_eq, laggedY,
          List.mem_map]
        exact ⟨⟨r, hr, rfl⟩, hd⟩

/-- Concrete instance of C5: the three-row example builder with cutoff 5
yields a fit on the first two rows' `(Lag1, Lag2)` pairs. -/
theorem model_build_selects_and_partitions_witness :
    exFit.lagsRequested = 5
    ∧ ((0 : Int), (1 : ℚ), (2 : ℚ)) ∈ exFit.X_train :=
  ⟨(model_build_selects_and_partitions exClb ["SPY"] 0 20 5 exFit
      (by rfl)).1,
   (((model_build_selects_and_partitions exClb ["SPY"] 0 20 5 exFit
      (by rfl)).2.2.2.2.2.2.2 ⟨0, [1, 2, 3, 4, 5], 1⟩ (by decide)).1
      (by decide)).1⟩

/-- C6: model construction fails with `ConfigurationError` when fewer
than two lag columns are available, fails with `TrainingError` when the
training partition is empty or its labels form a single class, and on
either failure the constructor yields no (partially built) strategy; a
successful construction yields a fully initialised one. -/
theorem model_build_error_paths
    (clb : String → Int → Int → Nat → List LagRow)
    (syms : List String) (t d0 d1 dtest : Int) :
    (¬ (∀ r ∈ clb (syms.getD 0 "") d0 d1 5, 2 ≤ r.lags.length) →
      create_symbol_forecast_model clb syms d0 d1 dtest
        = Except.error BuildError.configurationError)
    ∧ (∀ c : Int, (∀ r ∈ clb (syms.getD 0 "") d0 d1 5, 2 ≤ r.lags.length) →
      (∀ r ∈ clb (syms.getD 0 "") d0 d1 5, r.date < dtest →
        r.direction = c) →
      create_symbol_forecast_model clb syms d0 d1 dtest
        = Except.error BuildError.trainingError)
    ∧ (∀ e, strategyInit clb syms t d0 d1 dtest = Except.error e
        ↔ create_symbol_forecast_model clb syms d0 d1 dtest
          = Except.error e)
    ∧ (∀ st, strategyInit clb syms t d0 d1 dtest = Except.ok st →
        create_symbol_forecast_model clb syms d0 d1 dtest
          = Except.ok st.model ∧ st.state = initState syms t) := by
  refine ⟨?_, ?_, ?_, ?_⟩
  · intro h
    have hcols : ¬ ((clb (syms.getD 0 "") d0 d1 5).all
        (fun r => decide (2 ≤ r.lags.length)) = true) := by
      rw [List.all_eq_true]
      intro hc
      exact h (fun r hr => by simpa using hc r hr)
    simp only [create_symbol_forecast_model]
    rw [if_neg hcols]
  · intro c hcols hlab
    have hcolsB : (clb (syms.getD 0 "") d0 d1 5).all
        (fun r => decide (2 ≤ r.lags.length)) = true := by
      rw [List.all_eq_true]
      intro r hr
      simpa using hcols r hr
    have hall : ∀ p ∈ (laggedY (clb (syms.getD 0 "") d0 d1 5)).filter
        (fun p => decide (p.1 < dtest)), p.2 = c := by
      intro p hp
      simp only [List.mem_filter, decide_eq_true_eq, laggedY,
        List.mem_map] at hp
      rcases hp.1 with ⟨r, hr, hpr⟩
      have hdate : r.date < dtest := by
        rw [← hpr] at hp
        exact hp.2
      rw [← hpr]
      exact hlab r hr hdate
    simp only [create_symbol_forecast_model]
    rw [if_pos hcolsB]
    rcases hYt : (laggedY (clb (syms.getD 0 "") d0 d1 5)).filter
        (fun p => decide (p.1 < dtest)) with _ | ⟨q, qs⟩
    · rw [hYt]
      simp
    · have hq : q.2 = c := hall q (by rw [hYt]; exact List.mem_cons_self q qs)
      have hdegB : ((q :: qs).all
          (fun p => decide (p.2 = ((q :: qs).headD (0, 0)).2)) = true) := by
        rw [List.all_eq_true]
        intro p hp
        have hp' : p.2 = c := hall p (by rw [hYt]; exact hp)
        simp [hp', hq]
      rw [hYt, if_neg (by simp : ¬ ((q :: qs).isEmpty = true)),
        if_pos hdegB]
  · intro e
    simp only [strategyInit]
    rcases h : create_symbol_forecast_model clb syms d0 d1 dtest with e' | fc
    · simp [Except.map]
    · simp [Except.map]
  · intro st hst
    simp only [strategyInit] at hst
    rcases h : create_symbol_forecast_model clb syms d0 d1 dtest with e' | fc
    · rw [h] at hst
      simp [Except.map] at hst
    · rw [h] at hst
      simp only [Except.map, Except.ok.injEq] at hst
      rw [← hst]
      exact ⟨rfl, rfl⟩

/-- Concrete instance of C6: a builder whose rows hold a single lag
column makes construction fail with the configuration error. -/
theorem model_build_error_paths_witness :
    create_symbol_forecast_model exClbBad ["SPY"] 0 20 5
      = Except.error BuildError.configurationError :=
  (model_build_error_paths exClbBad ["SPY"] 42 0 20 5).1 (by decide)

end SnpForecast
